import Mathlib

/-!
Verification development for the Neemo embedded document store
(src/src/main.rs).  Documents are field-to-value maps stored under string
keys in a primary sled tree (`db`); a second sled tree (`index`) maps the
composite string `field ++ ":" ++ serde_json::to_string(value)` to the
owning document key.

Modelling conventions:
* sled trees are modelled as association lists `List (String × α)` kept in
  ascending key order by `storeInsert` (sled iterates keys in lexicographic
  byte order; Lean's `String` order is lexicographic on code points, which
  agrees with UTF-8 byte order).
* `serde_json::Value` is modelled by the scalar fragment `JsonValue`
  (null, bool, number, string); no claim touches arrays or objects.
  Numbers are modelled as `Int` (all claims use integer values); their
  serde_json text form is `toString`.
* a serialized document byte string is modelled by `Bytes`: constructor
  `Bytes.doc d` stands for the serde_json serialization of `d` (which is
  injective, with deserialization as its inverse), and `Bytes.corrupt s`
  stands for a byte string that `serde_json::from_slice::<Document>` fails
  to decode.  Where the source uses the serialized text itself as a string
  (the import key, export lines) the concrete serializer `docString` is
  used.
* sled I/O errors (`Err` from tree operations) are out of scope: the
  source either propagates or unwraps them and no claim concerns them.
-/

/-- Scalar fragment of `serde_json::Value`.  Arrays and objects are omitted:
no claim in this development mentions structured values. -/
inductive JsonValue where
  | null : JsonValue
  | bool : Bool → JsonValue
  | num : Int → JsonValue
  | str : String → JsonValue
deriving DecidableEq, Repr

/-- Serialization `serde_json::to_string` of a scalar value.  Integers print as their
decimal text; strings are quoted (the claims use strings without
characters that would require JSON escaping). -/
def jsonString : JsonValue → String
  | .null => "null"
  | .bool true => "true"
  | .bool false => "false"
  | .num n => toString n
  | .str s => "\x22" ++ s ++ "\x22"

/-- A document (`struct Document { data: HashMap<String, Value> }`).  The
`HashMap` is modelled as an association list; its iteration order is the
list order. -/
structure Document where
  data : List (String × JsonValue)
deriving DecidableEq, Repr

/-- Serialization `serde_json::to_string(&doc)`: the serialized text of a document, in
the iteration order of its fields. -/
def docString (d : Document) : String :=
  "\x7b\x22data\x22:\x7b" ++
    String.intercalate ","
      (d.data.map (fun fv => "\x22" ++ fv.1 ++ "\x22:" ++ jsonString fv.2)) ++
    "\x7d\x7d"

/-- Lexicographic order on character lists by code point: the order in
which sled sees UTF-8 byte strings (UTF-8 encoding preserves code-point
order, so byte-lexicographic and code-point-lexicographic order agree). -/
def lexLt : List Char → List Char → Bool
  | [], [] => false
  | [], _ :: _ => true
  | _ :: _, [] => false
  | c :: cs, d :: ds =>
    if c.toNat < d.toNat then true
    else if d.toNat < c.toNat then false
    else lexLt cs ds

/-- Strict byte order on strings, as sled compares raw keys. -/
def strLt (s t : String) : Bool := lexLt s.data t.data

/-- Reflexive byte order on strings. -/
def strLe (s t : String) : Bool := !(strLt t s)

/-- Whether one character list is a prefix of another. -/
def lexIsPfx : List Char → List Char → Bool
  | [], _ => true
  | _ :: _, [] => false
  | c :: cs, d :: ds => c.toNat == d.toNat && lexIsPfx cs ds

/-- Whether `p` is a byte prefix of `s`: the key filter of
`sled::Db::scan_prefix`. -/
def strIsPfx (p s : String) : Bool := lexIsPfx p.data s.data

/-- A stored byte string in the primary tree.  `Bytes.doc d` is the
serde_json serialization of `d`; `Bytes.corrupt s` is any byte string on
which `serde_json::from_slice::<Document>` fails. -/
inductive Bytes where
  | doc : Document → Bytes
  | corrupt : String → Bytes
deriving DecidableEq, Repr

/-- Deserialization `serde_json::from_slice::<Document>`: it succeeds exactly
on serializer output and recovers the document. -/
def decodeBytes : Bytes → Option Document
  | .doc d => some d
  | .corrupt _ => none

/-- Model of `sled::Db::get`: first value stored under the key, if any. -/
def storeGet {α : Type} (st : List (String × α)) (k : String) : Option α :=
  match st with
  | [] => none
  | (k', v) :: rest => if k' = k then some v else storeGet rest k

/-- Model of `sled::Db::insert`: overwrite the value at the key, keeping the list in
ascending key order (sled is an ordered tree). -/
def storeInsert {α : Type} (st : List (String × α)) (k : String) (v : α) :
    List (String × α) :=
  match st with
  | [] => [(k, v)]
  | (k', v') :: rest =>
    if k = k' then (k, v) :: rest
    else if strLt k k' then (k, v) :: (k', v') :: rest
    else (k', v') :: storeInsert rest k v

/-- Model of `sled::Db::remove`: the previous value at the key (if any), together
with the tree after removal. -/
def storeRemove {α : Type} (st : List (String × α)) (k : String) :
    Option α × List (String × α) :=
  match st with
  | [] => (none, [])
  | (k', v) :: rest =>
    if k' = k then (some v, rest)
    else
      let r := storeRemove rest k
      (r.1, (k', v) :: r.2)

/-- The two sled trees of a `Neemo` instance: the primary document tree
`db` (key to serialized document bytes) and the secondary index tree
`index` (composite key to owning document key). -/
structure Neemo where
  db : List (String × Bytes)
  index : List (String × String)
deriving DecidableEq, Repr

/-- A freshly opened pair of empty trees. -/
def Neemo.empty : Neemo := ⟨[], []⟩

/-- The composite index key written by `Neemo::insert`:
`format!("{}:{}", field, serde_json::to_string(value))`.  Note that it
contains no document-key suffix. -/
def indexKey (field : String) (v : JsonValue) : String :=
  field ++ ":" ++ jsonString v

/-- Model of `Neemo::insert` (main.rs 38-47): serialize the document, write it to
the primary tree under `key`, then for each field write one index entry
`indexKey field value ↦ key`.  No index entries of a previously stored
document are removed. -/
def Neemo.insert (s : Neemo) (key : String) (d : Document) : Neemo :=
  { db := storeInsert s.db key (Bytes.doc d)
    index := d.data.foldl
      (fun ix fv => storeInsert ix (indexKey fv.1 fv.2) key) s.index }

/-- Model of `Neemo::get` (main.rs 50-52): fetch the bytes under `key` and decode
them; both a missing key and undecodable bytes collapse to `None` (the
source applies `.ok().flatten()` and `.and_then(.. .ok())`). -/
def Neemo.get (s : Neemo) (key : String) : Option Document :=
  (storeGet s.db key).bind decodeBytes

/-- Model of `Neemo::delete` (main.rs 55-64): remove the bytes under `key`; if a
document was present, decode it (a decode failure is returned as `Err`
after the primary removal already happened) and remove the index entry of
each of its fields.  An absent key is a silent `Ok`. -/
def Neemo.delete (s : Neemo) (key : String) : Neemo × Except String Unit :=
  match storeRemove s.db key with
  | (none, db') => ({ s with db := db' }, .ok ())
  | (some bytes, db') =>
    match decodeBytes bytes with
    | none => ({ s with db := db' }, .error "deserialization failed")
    | some d =>
      ({ db := db'
         index := d.data.foldl
           (fun ix fv => (storeRemove ix (indexKey fv.1 fv.2)).2) s.index },
       .ok ())

/-- Model of `Neemo::query` (main.rs 67-81): prefix scan of the index over
`indexKey field value`, fetching each referenced document from the primary
tree; entries whose fetch or decode fails are skipped. -/
def Neemo.query (s : Neemo) (field : String) (v : JsonValue) : List Document :=
  (s.index.filter (fun e => strIsPfx (indexKey field v) e.1)).filterMap
    (fun e => (storeGet s.db e.2).bind decodeBytes)

/-- Model of `Neemo::range_query` (main.rs 100-115): scan the index over the raw
byte-string interval `[indexKey field start, indexKey field end)`, fetching
each referenced document; the interval is over the textual JSON encoding,
not over numeric value. -/
def Neemo.range_query (s : Neemo) (field : String) (a b : JsonValue) :
    List Document :=
  (s.index.filter (fun e =>
      strLe (indexKey field a) e.1 && strLt e.1 (indexKey field b))).filterMap
    (fun e => (storeGet s.db e.2).bind decodeBytes)

/-- The numeric values of `field` over the decodable documents of the
primary tree, in tree order: the accumulation domain of
`Neemo::aggregate`.  serde_json numbers are modelled exactly as rationals
(the claims only evaluate aggregates at integer inputs, where `f64`
arithmetic is exact). -/
def numericValues (s : Neemo) (field : String) : List ℚ :=
  s.db.filterMap (fun e =>
    match decodeBytes e.2 with
    | none => none
    | some d =>
      match storeGet d.data field with
      | some (JsonValue.num n) => some (n : ℚ)
      | _ => none)

/-- Model of `Neemo::aggregate` (main.rs 139-164): one pass accumulating `sum` and
`count` over the numeric values of `field`; `"sum"` and `"count"` wrap the
accumulator, `"avg"` computes `sum / count` — in the source this is `f64`
division, and `serde_json::Number::from_f64` returns `None` exactly when
the quotient is not finite, which for a finite sum happens exactly when
`count = 0` (`0.0 / 0.0` is NaN).  Any other operator yields `None`. -/
def Neemo.aggregate (s : Neemo) (field op : String) : Option ℚ :=
  let sum : ℚ := (numericValues s field).foldl (· + ·) 0
  let count : Nat := (numericValues s field).length
  if op = "sum" then some sum
  else if op = "count" then some (count : ℚ)
  else if op = "avg" then
    if count = 0 then none else some (sum / (count : ℚ))
  else none

/-- Model of `Neemo::export` (main.rs 175-188): iterate the primary tree in key
order and write one serialized line per decodable document (undecodable
entries are skipped).  Each line is the serde_json serialization of the
decoded document, modelled as `Bytes.doc`. -/
def Neemo.exportDocs (s : Neemo) : List Bytes :=
  s.db.filterMap (fun e => (decodeBytes e.2).map Bytes.doc)

/-- Model of `Neemo::import` (main.rs 191-203): for each line that parses as a
document, call `insert` with key `serde_json::to_string(&doc)` — the
serialized text of the document itself, not any original key.  Lines that
fail to parse are skipped. -/
def Neemo.importDocs (s : Neemo) (lines : List Bytes) : Neemo :=
  lines.foldl
    (fun st line =>
      match decodeBytes line with
      | some d => st.insert (docString d) d
      | none => st) s

/-- The states visible at the atomic commit points inside `Neemo::insert`:
each sled operation in the source runs under its own statement-scoped
`Mutex` guard (`self.db.lock().unwrap().insert(..)`, then one
`self.index.lock().unwrap().insert(..)` per field), and no lock is held
between statements, so a concurrent reader can observe the state after the
primary write and before any index write, or between two index writes.
The list holds the state after the primary write followed by the state
after each successive index write; its last element is `Neemo.insert`. -/
def Neemo.insertStates (s : Neemo) (key : String) (d : Document) :
    List Neemo :=
  List.scanl
    (fun st fv => { st with index := storeInsert st.index (indexKey fv.1 fv.2) key })
    { s with db := storeInsert s.db key (Bytes.doc d) }
    d.data

/-- Inserting at a key makes that key's lookup return the inserted value,
whatever the prior contents of the tree. -/
theorem storeGet_storeInsert_self {α : Type} (st : List (String × α))
    (k : String) (v : α) : storeGet (storeInsert st k v) k = some v := by
  induction st with
  | nil => simp [storeInsert, storeGet]
  | cons hd tl ih =>
    obtain ⟨k', v'⟩ := hd
    by_cases h : k = k'
    · simp [storeInsert, h, storeGet]
    · rcases hlt : strLt k k' with _ | _
      · simp [storeInsert, h, hlt, storeGet, Ne.symm h, ih]
      · simp [storeInsert, h, hlt, storeGet]

/-- Removing an absent key returns no previous value and leaves the tree
unchanged. -/
theorem storeRemove_absent {α : Type} (st : List (String × α)) (k : String)
    (h : storeGet st k = none) : storeRemove st k = (none, st) := by
  induction st with
  | nil => simp [storeRemove]
  | cons hd tl ih =>
    obtain ⟨k', v'⟩ := hd
    by_cases hk : k' = k
    · simp [storeGet, hk] at h
    · simp only [storeGet, if_neg hk] at h
      simp [storeRemove, hk, ih h]

/-- C5: for every prior store state, every key and every document `d`, a
point read of `key` immediately after `insert(key, d)` succeeds and
returns a document equal to `d`. -/
theorem get_after_insert (s : Neemo) (key : String) (d : Document) :
    (s.insert key d).get key = some d := by
  unfold Neemo.get Neemo.insert
  simp [storeGet_storeInsert_self, decodeBytes]

/-- C7: deleting a key absent from the document tree succeeds (`Ok`, not
an error) and leaves both the document tree and the index tree unchanged. -/
theorem delete_absent_noop (s : Neemo) (key : String)
    (h : storeGet s.db key = none) :
    s.delete key = (s, Except.ok ()) := by
  unfold Neemo.delete
  rw [storeRemove_absent s.db key h]

/-- Witness for C7: deleting the absent key `zz` from a one-document store
is a no-op. -/
theorem delete_absent_noop_witness :
    storeGet (Neemo.empty.insert "u1" ⟨[("a", JsonValue.num 1)]⟩).db "zz" = none ∧
    (Neemo.empty.insert "u1" ⟨[("a", JsonValue.num 1)]⟩).delete "zz"
      = (Neemo.empty.insert "u1" ⟨[("a", JsonValue.num 1)]⟩, Except.ok ()) :=
  ⟨by decide,
   delete_absent_noop (Neemo.empty.insert "u1" ⟨[("a", JsonValue.num 1)]⟩) "zz" (by decide)⟩

/-- C6: when no stored document carries a numeric value on `field`, the
average aggregate yields `none` — the source's distinguished outcome,
produced because `Number::from_f64` rejects the NaN quotient `0.0 / 0.0` —
never `some 0`; and a store whose legitimate average is zero yields
`some 0`, so the two outcomes are distinguishable. -/
theorem aggregate_avg_empty_undefined (s : Neemo) (field : String)
    (h : ∀ e ∈ s.db, ∀ d, decodeBytes e.2 = some d →
        ∀ n : Int, storeGet d.data field ≠ some (JsonValue.num n)) :
    s.aggregate field "avg" = none ∧
    s.aggregate field "avg" ≠ some 0 ∧
    (Neemo.empty.insert "z" ⟨[(field, JsonValue.num 0)]⟩).aggregate field "avg"
      = some 0 := by
  have hnil : numericValues s field = [] := by
    unfold numericValues
    rw [List.filterMap_eq_nil_iff]
    intro e he
    cases hdec : decodeBytes e.2 with
    | none => simp
    | some d =>
      cases hval : storeGet d.data field with
      | none => simp [hval]
      | some v =>
        cases v with
        | num n => exact absurd hval (h e he d hdec n)
        | null => simp [hval]
        | bool b => simp [hval]
        | str t => simp [hval]
  have havg : s.aggregate field "avg" = none := by
    unfold Neemo.aggregate
    simp [hnil]
  refine ⟨havg, by simp [havg], ?_⟩
  unfold Neemo.aggregate numericValues Neemo.insert Neemo.empty
  simp [storeInsert, storeGet, decodeBytes]

/-- Witness for C6: a store holding only a document without the field
`age` gives an undefined average, while a store whose only `age` value is
`0` gives average `some 0`. -/
theorem aggregate_avg_empty_undefined_witness :
    (Neemo.empty.insert "u1" ⟨[("name", JsonValue.str "x")]⟩).aggregate "age" "avg" = none ∧
    (Neemo.empty.insert "u1" ⟨[("name", JsonValue.str "x")]⟩).aggregate "age" "avg" ≠ some 0 ∧
    (Neemo.empty.insert "z" ⟨[("age", JsonValue.num 0)]⟩).aggregate "age" "avg" = some 0 :=
  aggregate_avg_empty_undefined
    (Neemo.empty.insert "u1" ⟨[("name", JsonValue.str "x")]⟩) "age"
    (by
      intro e he d hdec n
      simp [Neemo.insert, Neemo.empty, storeInsert] at he
      subst he
      simp [decodeBytes] at hdec
      subst hdec
      simp [storeGet])

/-- C1 (refutation): after inserting `u1` and `u2` whose documents share
the pair `(age, 30)`, the equality query for `age = 30` returns only the
later document, not both — the composite index key carries no document-key
suffix, so the second insert overwrote the shared entry `age:30`, which
now points at `u2` alone. -/
theorem query_shared_pair_returns_single_document :
    ((Neemo.empty.insert "u1" ⟨[("age", JsonValue.num 30), ("name", JsonValue.str "a")]⟩).insert
        "u2" ⟨[("age", JsonValue.num 30), ("name", JsonValue.str "b")]⟩).query
        "age" (JsonValue.num 30)
      = [⟨[("age", JsonValue.num 30), ("name", JsonValue.str "b")]⟩] ∧
    storeGet ((Neemo.empty.insert "u1"
        ⟨[("age", JsonValue.num 30), ("name", JsonValue.str "a")]⟩).insert
        "u2" ⟨[("age", JsonValue.num 30), ("name", JsonValue.str "b")]⟩).index
        (indexKey "age" (JsonValue.num 30))
      = some "u2" := by decide

/-- C2 (refutation): with documents holding `n` = 9, 10 and 100, the range
query over `[0, 50)` on `n` returns the documents with `n` = 10 and
`n` = 100 in that order — the index interval is over the textual JSON
encoding, where `"n:10"` and `"n:100"` fall below `"n:50"` but `"n:9"`
falls above it — instead of the numerically correct 9 and 10. -/
theorem range_query_uses_textual_order :
    (((Neemo.empty.insert "d9" ⟨[("n", JsonValue.num 9)]⟩).insert
        "d10" ⟨[("n", JsonValue.num 10)]⟩).insert
        "d100" ⟨[("n", JsonValue.num 100)]⟩).range_query
        "n" (JsonValue.num 0) (JsonValue.num 50)
      = [⟨[("n", JsonValue.num 10)]⟩, ⟨[("n", JsonValue.num 100)]⟩] := by decide

/-- C3 (refutation): overwriting the document at `k` (field `a` changing
from 1 to 2) leaves the old index entry `a:1 ↦ k` in place, so the store
holds an index entry for a pair present in no live document, and the
equality query for `a = 1` wrongly returns the document whose `a` is 2. -/
theorem overwrite_leaves_stale_index_entry :
    storeGet ((Neemo.empty.insert "k" ⟨[("a", JsonValue.num 1)]⟩).insert
        "k" ⟨[("a", JsonValue.num 2)]⟩).index (indexKey "a" (JsonValue.num 1))
      = some "k" ∧
    ((Neemo.empty.insert "k" ⟨[("a", JsonValue.num 1)]⟩).insert
        "k" ⟨[("a", JsonValue.num 2)]⟩).get "k"
      = some ⟨[("a", JsonValue.num 2)]⟩ ∧
    ((Neemo.empty.insert "k" ⟨[("a", JsonValue.num 1)]⟩).insert
        "k" ⟨[("a", JsonValue.num 2)]⟩).query "a" (JsonValue.num 1)
      = [⟨[("a", JsonValue.num 2)]⟩] := by decide

/-- C4 (refutation): exporting a store holding one document under key
`u1` and importing the export into a fresh store yields a store whose only
key is the serialized text of the document itself, not `u1` — the import
derives the insert key from the document content and the original key set
is lost. -/
theorem imported_key_derived_from_content :
    Neemo.importDocs Neemo.empty
        (Neemo.exportDocs (Neemo.empty.insert "u1" ⟨[("a", JsonValue.num 1)]⟩))
      = ⟨[("\x7b\x22data\x22:\x7b\x22a\x22:1\x7d\x7d",
           Bytes.doc ⟨[("a", JsonValue.num 1)]⟩)],
         [("a:1", "\x7b\x22data\x22:\x7b\x22a\x22:1\x7d\x7d")]⟩ ∧
    storeGet (Neemo.importDocs Neemo.empty
        (Neemo.exportDocs (Neemo.empty.insert "u1" ⟨[("a", JsonValue.num 1)]⟩))).db
        "u1" = none ∧
    storeGet (Neemo.empty.insert "u1" ⟨[("a", JsonValue.num 1)]⟩).db "u1"
      = some (Bytes.doc ⟨[("a", JsonValue.num 1)]⟩) := by decide

/-- C8 (refutation): a key whose stored bytes fail to decode and a key
that is absent both make `get` return `none` — the source swallows the
decode error with `.ok()`, so corruption is not distinguishable from
`NotFound` at the point-read interface. -/
theorem get_corrupt_indistinguishable_from_absent :
    Neemo.get ⟨[("k", Bytes.corrupt "xyz")], []⟩ "k" = none ∧
    storeGet (Neemo.db ⟨[("k", Bytes.corrupt "xyz")], []⟩) "k"
      = some (Bytes.corrupt "xyz") ∧
    Neemo.get ⟨[], []⟩ "k" = none := by decide

/-- C9 (refutation): the state reached after the primary-tree write of
`insert("k", {a: 1})` but before its index write — observable by a
concurrent reader, because each sled operation in the source runs under
its own statement-scoped lock — is a mixed state: the point read of `k`
already succeeds while the equality query for `a = 1` still returns
nothing, unlike both the pre-state (read fails) and the post-state (query
succeeds). -/
theorem insert_exposes_mixed_intermediate_state :
    (⟨[("k", Bytes.doc ⟨[("a", JsonValue.num 1)]⟩)], []⟩ : Neemo) ∈
        Neemo.insertStates Neemo.empty "k" ⟨[("a", JsonValue.num 1)]⟩ ∧
    Neemo.get ⟨[("k", Bytes.doc ⟨[("a", JsonValue.num 1)]⟩)], []⟩ "k"
      = some ⟨[("a", JsonValue.num 1)]⟩ ∧
    Neemo.query ⟨[("k", Bytes.doc ⟨[("a", JsonValue.num 1)]⟩)], []⟩
        "a" (JsonValue.num 1) = [] ∧
    Neemo.get Neemo.empty "k" = none ∧
    (Neemo.empty.insert "k" ⟨[("a", JsonValue.num 1)]⟩).query "a" (JsonValue.num 1)
      = [⟨[("a", JsonValue.num 1)]⟩] := by decide

/-- C10: with distinct keys `u1` and `u2` whose documents share the pair
`(age, 30)`, deleting `u1` removes the single shared index entry `age:30`,
so the equality query for `age = 30` returns no documents even though the
point read of `u2` still returns its document. -/
theorem delete_retracts_shared_index_entry :
    "u1" ≠ "u2" ∧
    ((((Neemo.empty.insert "u1" ⟨[("age", JsonValue.num 30)]⟩).insert
        "u2" ⟨[("age", JsonValue.num 30)]⟩).delete "u1").1).query
        "age" (JsonValue.num 30) = [] ∧
    ((((Neemo.empty.insert "u1" ⟨[("age", JsonValue.num 30)]⟩).insert
        "u2" ⟨[("age", JsonValue.num 30)]⟩).delete "u1").1).get "u2"
      = some ⟨[("age", JsonValue.num 30)]⟩ := by decide
